import Mathlib

/-!
Shallow embedding of the stock reconciliation engine of
syncStocksML.js together with the batch-validation guard of the
POST /api/sync/stocks route of server.js.

Modelling conventions:
* JavaScript numbers are modelled as Lean integers (Int); every quantity
  handled by the engine in the verified claims is integral, so
  parseInt on an already integral value is the identity and
  x || 0 on an integer is the identity except at 0, where it is 0 as well.
* Remote I/O is modelled by an environment record: the Manager+ product
  lookup, the Mercado Libre update call, the Mercado Libre auth check and
  the catalog load are fields of the environment.  Retry passes may observe
  a different remote state, so the environment is indexed by a pass number
  (0 = initial pass, k = retry attempt k).
* Thrown JavaScript errors are modelled with Except String; the error
  string is the message of the thrown Error.
* Promise.all over a chunk is modelled as an in-order map: the JavaScript
  semantics of Promise.all places each settled value at the index of its
  promise, independently of completion timing, and rejects with the error
  of a rejecting element (here: the first in index order).
* Side effects on the sink are recorded explicitly: each invocation of
  updateMercadoLibreStock is returned as an UpdateCall value, and runs of
  the engine return an event trace recording the auth check, the catalog
  load and the issued sink updates.
-/

namespace SyncStocksML

/-- Per-item action tag of a sync result: the action field of the objects
returned by syncProductStock. -/
inductive Action
  | updated
  | no_change
  | would_update
  | skipped
  | error
deriving DecidableEq

/-- Result object returned by syncProductStock (the message field, which is
purely informational display text, is omitted). -/
structure SyncResult where
  sku : String
  success : Bool
  action : Action
  error : Option String
  managerStock : Option Int
  mlStock : Option Int
  newStock : Option Int
deriving DecidableEq

/-- One invocation of updateMercadoLibreStock: the PUT on
items/itemId setting available_quantity to quantity. -/
structure UpdateCall where
  itemId : String
  quantity : Int
deriving DecidableEq

/-- Value stored in the Mercado Libre product cache for one SKU
(loadAllMercadoLibreProducts); only the fields read by syncProductStock
are kept: itemId and currentStock (title and status are display only). -/
structure MLProduct where
  itemId : String
  currentStock : Int
deriving DecidableEq

/-- An entry of an innermost stock sub-array of a Manager+ product payload:
either not an object (contributes nothing), or an object whose saldo field
is either numeric (some) or missing/non-numeric (none, contributes 0). -/
inductive StockItem
  | nonObject
  | obj (saldo : Option Int)
deriving DecidableEq

/-- An element of the top-level stock array: either not an array
(skipped by the Array.isArray check) or an array of entries. -/
inductive StockSub
  | nonArray
  | arr (items : List StockItem)
deriving DecidableEq

/-- A Manager+ product as seen by extractStockFromProduct: the stock field
is either absent/non-array (none) or an array of sub-arrays.  The other
fields (name, unit, price) play no role in the verified claims. -/
structure ManagerProduct where
  stockField : Option (List StockSub)
deriving DecidableEq

/-- Outcome of getManagerProductBySKU for one SKU: a thrown error
(rate limit, server error, or any other failure), a 404 mapped to null,
or the product payload. -/
inductive SourceLookup
  | fetchError (msg : String)
  | notFound
  | found (product : ManagerProduct)
deriving DecidableEq

/-- Outcome of one updateMercadoLibreStock call: success, or a thrown
error with its message. -/
inductive UpdateOutcome
  | ok
  | fail (msg : String)
deriving DecidableEq

/-- Options object accepted by the engine entry points.  retryDelay only
changes wall-clock sleeping and is not modelled.  concurrency and
maxRetries are none when the caller leaves the field undefined. -/
structure SyncOptions where
  dryRun : Bool := false
  forceUpdate : Bool := false
  concurrency : Option Nat := none
  maxRetries : Option Nat := none
deriving DecidableEq

/-- Remote behaviour visible to a single syncProductStock invocation. -/
structure ItemEnv where
  source : String → SourceLookup
  update : String → Int → UpdateOutcome

/-- Remote behaviour for a whole run: auth check and catalog load outcomes,
and per-pass source/update behaviour (pass 0 = initial, pass k = retry k). -/
structure Env where
  authCheck : Except String Unit
  catalog : Except String (List (String × MLProduct))
  source : Nat → String → SourceLookup
  update : Nat → String → Int → UpdateOutcome

/-- The item-level view of the environment at a given pass. -/
def Env.atPass (env : Env) (k : Nat) : ItemEnv :=
  ⟨env.source k, env.update k⟩

/-- Saldo contributed by one innermost entry: item.saldo when the entry is
an object with a numeric saldo, 0 otherwise (parseFloat(saldo) || 0 with
saldo defaulted to 0). -/
def itemSaldo : StockItem → Int
  | .nonObject => 0
  | .obj none => 0
  | .obj (some saldo) => saldo

/-- Sum of the saldo fields of one sub-array; non-arrays contribute 0. -/
def subArrayStock : StockSub → Int
  | .nonArray => 0
  | .arr items => items.foldl (fun acc it => acc + itemSaldo it) 0

/-- extractStockFromProduct: sums every saldo at the innermost level of the
array-of-arrays stock field; a missing/non-array/empty stock field gives 0. -/
def extractStockFromProduct (p : ManagerProduct) : Int :=
  match p.stockField with
  | none => 0
  | some subs =>
    if 0 < subs.length then subs.foldl (fun acc sub => acc + subArrayStock sub) 0
    else 0

/-- productsMap.get(sku): first-match lookup in the SKU-keyed product map
(the map built by loadAllMercadoLibreProducts has unique keys, first
occurrence wins, so first-match association lookup is its exact behaviour). -/
def mapGet : List (String × MLProduct) → String → Option MLProduct
  | [], _ => none
  | e :: rest, sku => if e.1 = sku then some e.2 else mapGet rest sku

/-- syncProductStock(sku, options, mlProductsMap) with a prebuilt product
map, returning the result object together with the list of
updateMercadoLibreStock invocations it issued (a failed update call was
still issued, so it is recorded too; the thrown error is caught by the
outer try/catch and becomes an error result). -/
def syncProductStock (env : ItemEnv) (sku : String) (options : SyncOptions)
    (mlProductsMap : List (String × MLProduct)) : SyncResult × List UpdateCall :=
  match env.source sku with
  | .fetchError msg =>
    ({ sku := sku, success := false, action := .error, error := some msg,
       managerStock := none, mlStock := none, newStock := none }, [])
  | .notFound =>
    ({ sku := sku, success := false, action := .skipped,
       error := some "Producto no encontrado en Manager+",
       managerStock := none, mlStock := none, newStock := none }, [])
  | .found product =>
    match mapGet mlProductsMap sku with
    | none =>
      ({ sku := sku, success := false, action := .skipped,
         error := some "Producto no encontrado en Mercado Libre",
         managerStock := none, mlStock := none, newStock := none }, [])
    | some mlProduct =>
      let managerStock : Int := extractStockFromProduct product
      let mlStock : Int := mlProduct.currentStock
      if managerStock = mlStock ∧ options.forceUpdate = false then
        ({ sku := sku, success := true, action := .no_change, error := none,
           managerStock := some managerStock, mlStock := some mlStock,
           newStock := none }, [])
      else if options.dryRun then
        ({ sku := sku, success := true, action := .would_update, error := none,
           managerStock := some managerStock, mlStock := some mlStock,
           newStock := some managerStock }, [])
      else
        match env.update mlProduct.itemId managerStock with
        | .ok =>
          ({ sku := sku, success := true, action := .updated, error := none,
             managerStock := some managerStock, mlStock := some mlStock,
             newStock := some managerStock }, [⟨mlProduct.itemId, managerStock⟩])
        | .fail msg =>
          ({ sku := sku, success := false, action := .error, error := some msg,
             managerStock := none, mlStock := none, newStock := none },
           [⟨mlProduct.itemId, managerStock⟩])

/-- Whether the first list starts with the second (element-wise equality). -/
def seqStartsWith [DecidableEq α] : List α → List α → Bool
  | _, [] => true
  | [], _ :: _ => false
  | a :: as, b :: bs => if a = b then seqStartsWith as bs else false

/-- Whether the second list occurs as a contiguous run inside the first. -/
def seqContainsSub [DecidableEq α] : List α → List α → Bool
  | [], needle => seqStartsWith ([] : List α) needle
  | hay@(_ :: rest), needle =>
    if seqStartsWith hay needle then true else seqContainsSub rest needle

/-- JavaScript hay.includes(needle) on strings. -/
def strContainsSub (hay needle : String) : Bool :=
  seqContainsSub hay.toList needle.toList

/-- Structural worker for chunksOf: fuel bounds the number of chunks taken
(fuel = length of the list suffices when c ≥ 1, since every step consumes
at least one element). -/
def chunksOfAux (c : Nat) : Nat → List α → List (List α)
  | 0, _ => []
  | _, [] => []
  | fuel + 1, l@(_ :: _) => l.take c :: chunksOfAux c fuel (l.drop c)

/-- Consecutive chunks of size c of a list, as walked by the
for (let i = 0; i < array.length; i += concurrency) loop of
processInParallel.  The JavaScript loop never terminates when c = 0; the
engine always calls it with c ≥ 1, so the c = 0 case (returning no chunks)
is unreachable there. -/
def chunksOf (c : Nat) (l : List α) : List (List α) :=
  if c = 0 then [] else chunksOfAux c l.length l

/-- Promise.all over one chunk of processor calls: the settled values keep
the index order of the chunk; a rejection rejects the whole chunk with the
error of the rejecting element (first in index order in this model). -/
def chunkMap (f : α → Except String β) : List α → Except String (List β)
  | [] => .ok []
  | a :: as =>
    match f a with
    | .error e => .error e
    | .ok b =>
      match chunkMap f as with
      | .error e => .error e
      | .ok bs => .ok (b :: bs)

/-- Chunk loop of processInParallel: successful chunk results are appended
in order; a chunk-level rejection whose message contains "Rate limit" is
swallowed (that chunk contributes no results) and processing continues;
any other chunk-level rejection aborts the whole run. -/
def runChunks (f : α → Except String β) : List (List α) → Except String (List β)
  | [] => .ok []
  | chunk :: rest =>
    match chunkMap f chunk with
    | .ok bs =>
      match runChunks f rest with
      | .ok tail => .ok (bs ++ tail)
      | .error e => .error e
    | .error e =>
      if strContainsSub e "Rate limit" then runChunks f rest
      else .error e

/-- processInParallel(array, processor, concurrency). -/
def processInParallel (f : α → Except String β) (concurrency : Nat)
    (l : List α) : Except String (List β) :=
  runChunks f (chunksOf concurrency l)

/-- options.concurrency || 5 (undefined and 0 are falsy, giving 5). -/
def concurrencyOrDefault : Option Nat → Nat
  | none => 5
  | some c => if c = 0 then 5 else c

/-- Soft warning threshold for concurrency. -/
def MAX_RECOMMENDED_CONCURRENCY : Nat := 20

/-- Absolute concurrency ceiling. -/
def ABSOLUTE_MAX_CONCURRENCY : Nat := 50

/-- Concurrency validation of syncMultipleProducts: values above the
absolute ceiling are capped at 50 (with a console warning); values above
the soft threshold of 20 keep their value but warn.  The Bool records
whether a warning was printed; nothing is ever thrown. -/
def clampConcurrency (c : Nat) : Nat × Bool :=
  if ABSOLUTE_MAX_CONCURRENCY < c then (ABSOLUTE_MAX_CONCURRENCY, true)
  else if MAX_RECOMMENDED_CONCURRENCY < c then (c, true)
  else (c, false)

/-- The concurrency actually used by a run for the given options. -/
def effectiveConcurrency (options : SyncOptions) : Nat :=
  (clampConcurrency (concurrencyOrDefault options.concurrency)).1

/-- Whether syncMultipleProducts prints a concurrency warning. -/
def concurrencyWarned (options : SyncOptions) : Bool :=
  (clampConcurrency (concurrencyOrDefault options.concurrency)).2

/-- options.maxRetries !== undefined ? options.maxRetries : 3. -/
def maxRetriesOrDefault : Option Nat → Nat
  | none => 3
  | some m => m

/-- The results summary object of syncMultipleProducts.  Counters are Int
(JavaScript numbers under ++ and --). -/
structure RunResults where
  total : Int
  updated : Int
  skipped : Int
  errors : Int
  noChange : Int
  details : List SyncResult
deriving DecidableEq

/-- Sum of the four outcome counters of a results object. -/
def csum (res : RunResults) : Int :=
  res.updated + res.noChange + res.skipped + res.errors

/-- One step of the initial counter fold over details: success results
with action updated/would_update count as updated, no_change as noChange,
anything else successful as skipped; non-success results count as errors
(note: skipped results carry success = false, so they land in errors). -/
def tallyOne (res : RunResults) (r : SyncResult) : RunResults :=
  if r.success then
    if r.action = .updated ∨ r.action = .would_update then
      { res with updated := res.updated + 1 }
    else if r.action = .no_change then
      { res with noChange := res.noChange + 1 }
    else
      { res with skipped := res.skipped + 1 }
  else
    { res with errors := res.errors + 1 }

/-- Fresh results object for a run followed by the initial counter fold
over the processed details. -/
def initialTally (total : Int) (details : List SyncResult) : RunResults :=
  details.foldl tallyOne
    { total := total, updated := 0, skipped := 0, errors := 0,
      noChange := 0, details := details }

/-- Filter selecting the failures that the retry controller re-submits:
non-success error actions with a truthy message that contains neither
"no encontrado" nor "skipped". -/
def isRetryableFailure (r : SyncResult) : Bool :=
  if r.success then false
  else if r.action = .error then
    match r.error with
    | none => false
    | some msg =>
      if msg = "" then false
      else if strContainsSub msg "no encontrado" then false
      else if strContainsSub msg "skipped" then false
      else true
  else false

/-- findIndex(r => r.sku === retryResult.sku) followed by assignment of
the retry result at that index: returns the original element at the first
matching index and the list with that element replaced; none when no
index matches. -/
def spliceDetails (retryResult : SyncResult) :
    List SyncResult → Option (SyncResult × List SyncResult)
  | [] => none
  | r :: rest =>
    if r.sku = retryResult.sku then some (r, retryResult :: rest)
    else
      match spliceDetails retryResult rest with
      | none => none
      | some (orig, rest1) => some (orig, r :: rest1)

/-- Splice one retry result back into the results object: replace the
first detail with the same sku, and adjust the counters only when the
replaced detail was a non-success error result and the retry result is a
success (errors is decremented and the bucket selected by the retry
action is incremented). -/
def spliceOne (res : RunResults) (retryResult : SyncResult) : RunResults :=
  match spliceDetails retryResult res.details with
  | none => res
  | some (originalResult, newDetails) =>
    if retryResult.success = true ∧ originalResult.success = false ∧
        originalResult.action = .error then
      let res1 := { res with details := newDetails, errors := res.errors - 1 }
      if retryResult.action = .updated ∨ retryResult.action = .would_update then
        { res1 with updated := res1.updated + 1 }
      else if retryResult.action = .no_change then
        { res1 with noChange := res1.noChange + 1 }
      else if retryResult.action = .skipped then
        { res1 with skipped := res1.skipped + 1 }
      else res1
    else { res with details := newDetails }

/-- Per-item processor used by the retry passes: the wrapper lambda of the
engine catches any rejection, and syncProductStock itself never throws in
this model, so the processor always resolves. -/
def retryProcessor (env : Env) (options : SyncOptions)
    (map : List (String × MLProduct)) (attempt : Nat) (sku : String) :
    Except String (SyncResult × List UpdateCall) :=
  .ok (syncProductStock (env.atPass attempt) sku options map)

/-- The while loop of the retry controller: at each attempt (while failures
remain and attempts are left) the failing skus are re-processed at the
retry concurrency, each retry result is spliced back into the results
object, and the still-retryable failures feed the next attempt.  fuel is
the number of attempts left (maxRetries − attempt + 1). -/
def retryLoop (env : Env) (options : SyncOptions)
    (map : List (String × MLProduct)) (retryConcurrency : Nat) :
    Nat → Nat → List SyncResult → RunResults →
      Except String (RunResults × List UpdateCall)
  | _, 0, _, res => .ok (res, [])
  | attempt, fuel + 1, remaining, res =>
    if remaining.isEmpty then .ok (res, [])
    else
      match processInParallel (retryProcessor env options map attempt)
          retryConcurrency (remaining.map (fun r => r.sku)) with
      | .error e => .error e
      | .ok pairs =>
        let retryResults := pairs.map Prod.fst
        let updates := (pairs.map Prod.snd).flatten
        let res1 := retryResults.foldl spliceOne res
        let remaining1 := retryResults.filter (fun r => isRetryableFailure r)
        match retryLoop env options map retryConcurrency (attempt + 1) fuel
            remaining1 res1 with
        | .error e => .error e
        | .ok (resF, updatesR) => .ok (resF, updates ++ updatesR)

/-- Tail of syncMultipleProducts after the initial parallel pass: tally the
counters over the processed details, then, when retryable failures exist
and the run is not a dry run, run the retry controller at half the
effective concurrency (minimum 2) for up to maxRetries attempts. -/
def afterInitialPass (env : Env) (skus : List String) (options : SyncOptions)
    (map : List (String × MLProduct))
    (pairs : List (SyncResult × List UpdateCall)) :
    Except String (RunResults × List UpdateCall) :=
  let details := pairs.map Prod.fst
  let updates := (pairs.map Prod.snd).flatten
  let res0 := initialTally (Int.ofNat skus.length) details
  let failed := details.filter (fun r => isRetryableFailure r)
  if failed.isEmpty = false ∧ options.dryRun = false then
    let retryConcurrency := Nat.max 2 (effectiveConcurrency options / 2)
    match retryLoop env options map retryConcurrency 1
        (maxRetriesOrDefault options.maxRetries) failed res0 with
    | .error e => .error e
    | .ok (resF, updatesR) => .ok (resF, updates ++ updatesR)
  else .ok (res0, updates)

/-- Remote events a run can emit, in emission order. -/
inductive Event
  | authVerify
  | catalogLoad
  | sinkUpdate (itemId : String) (quantity : Int)
deriving DecidableEq

/-- Sink update calls as trace events. -/
def updateEvents (calls : List UpdateCall) : List Event :=
  calls.map (fun c => .sinkUpdate c.itemId c.quantity)

/-- syncMultipleProducts(skus, options): verify Mercado Libre auth, load
the product catalog into memory, process all skus in parallel at the
clamped concurrency, tally, and retry transient failures.  Returns the
results object (or the thrown fatal error) together with the trace of
remote events. -/
def syncMultipleProducts (env : Env) (skus : List String)
    (options : SyncOptions) : Except String RunResults × List Event :=
  match env.authCheck with
  | .error e => (.error e, [.authVerify])
  | .ok _ =>
    match env.catalog with
    | .error e => (.error e, [.authVerify, .catalogLoad])
    | .ok map =>
      match processInParallel
          (fun sku => .ok (syncProductStock (env.atPass 0) sku options map))
          (effectiveConcurrency options) skus with
      | .error e => (.error e, [.authVerify, .catalogLoad])
      | .ok pairs =>
        match afterInitialPass env skus options map pairs with
        | .error e => (.error e, [.authVerify, .catalogLoad])
        | .ok (resF, updates) =>
          (.ok resF, [.authVerify, .catalogLoad] ++ updateEvents updates)

/-- syncAllProducts(options): load the catalog, take every SKU key of the
map, throw when there are none, otherwise delegate to
syncMultipleProducts. -/
def syncAllProducts (env : Env) (options : SyncOptions) :
    Except String RunResults × List Event :=
  match env.catalog with
  | .error e => (.error e, [.catalogLoad])
  | .ok map =>
    let skus := map.map Prod.fst
    if skus.length = 0 then
      (.error "No hay publicaciones con SKU configurado en Mercado Libre. Configura seller_custom_field o el atributo SELLER_SKU para cada publicación.",
       [.catalogLoad])
    else
      let run := syncMultipleProducts env skus options
      (run.1, .catalogLoad :: run.2)

/-- HTTP responses the POST /api/sync/stocks route can produce. -/
inductive HttpResponse
  | okJson (dryRun : Bool) (results : RunResults)
  | badRequest (error : String)
  | serverError (error : String)
deriving DecidableEq

/-- The POST /api/sync/stocks handler of server.js: a missing, non-array
or empty skus body field is rejected with a 400 before the engine is
invoked; otherwise syncMultipleProducts runs with only the dryRun option
and a thrown error becomes a 500. -/
def handleSyncStocksPost (env : Env) (skus : Option (List String))
    (dryRun : Bool) : HttpResponse × List Event :=
  match skus with
  | none => (.badRequest "Se requiere un array de SKUs en el body", [])
  | some l =>
    if l.length = 0 then
      (.badRequest "Se requiere un array de SKUs en el body", [])
    else
      match syncMultipleProducts env l { dryRun := dryRun } with
      | (.ok results, tr) => (.okJson dryRun results, tr)
      | (.error e, tr) => (.serverError e, tr)

/-- The four outcome counters of a results object as a tuple
(updated, noChange, skipped, errors). -/
def counters (res : RunResults) : Int × Int × Int × Int :=
  (res.updated, res.noChange, res.skipped, res.errors)

/-- Entries of one stock sub-array (empty for a non-array element). -/
def subItems : StockSub → List StockItem
  | .nonArray => []
  | .arr items => items

/-- Example item-level environment: the source returns, for any SKU, a
product whose stock field is one sub-array with a single saldo of 5, and
every sink update succeeds. -/
def exItemEnv5 : ItemEnv :=
  ⟨fun _ => .found ⟨some [.arr [.obj (some 5)]]⟩, fun _ _ => .ok⟩

/-- Example sink index: sku A listed under item id MLA1 at quantity 3. -/
def exMap3 : List (String × MLProduct) := [("A", ⟨"MLA1", 3⟩)]

/-- Example sink index: sku A listed under item id MLA1 at quantity 5. -/
def exMap5 : List (String × MLProduct) := [("A", ⟨"MLA1", 5⟩)]

/-- Example run environment: auth and catalog succeed, the catalog holds
sku A at quantity 3, the source reports quantity 5 at every pass, and all
updates succeed. -/
def exRunEnv : Env :=
  { authCheck := .ok ()
    catalog := .ok [("A", ⟨"MLA1", 3⟩)]
    source := fun _ _ => .found ⟨some [.arr [.obj (some 5)]]⟩
    update := fun _ _ _ => .ok }

/-- Example run environment with an empty catalog (no SKU-linked
listings); auth succeeds and the source always reports not-found. -/
def envEmptyCatalog : Env :=
  { authCheck := .ok ()
    catalog := .ok []
    source := fun _ _ => .notFound
    update := fun _ _ _ => .ok }

/-- Example run environment for the retry flip to skipped: the initial
pass throws a transient server error for every SKU, and every retry pass
reports the product as missing from the source (a 404). -/
def envTransientThenMissing : Env :=
  { authCheck := .ok ()
    catalog := .ok [("A", ⟨"MLA1", 3⟩)]
    source := fun k _ =>
      if k = 0 then .fetchError "Error del servidor Manager+ (500). Puede estar sobrecargado."
      else .notFound
    update := fun _ _ _ => .ok }

/-- Example error detail used to exercise the retry splice. -/
def exErrorDetail : SyncResult :=
  ⟨"A", false, .error, some "boom", none, none, none⟩

/-- Example results object holding one error detail for sku A. -/
def exErrorRun : RunResults := ⟨1, 0, 0, 1, 0, [exErrorDetail]⟩

/-- The results object produced by running the engine over the single
sku A in exRunEnv. -/
def exUpdatedRun : RunResults :=
  ⟨1, 1, 0, 0, 0, [⟨"A", true, .updated, none, some 5, some 3, some 5⟩]⟩

/-! Helper lemmas about the executor and the per-item step. -/

theorem chunksOfAux_flatten {α} (c : Nat) (hc : c ≠ 0) :
    ∀ (fuel : Nat) (l : List α), l.length ≤ fuel →
      (chunksOfAux c fuel l).flatten = l := by
  intro fuel
  induction fuel with
  | zero =>
    intro l hl
    have : l = [] := List.eq_nil_of_length_eq_zero (Nat.le_zero.mp hl)
    subst this
    rfl
  | succ n ih =>
    intro l hl
    cases l with
    | nil => rfl
    | cons a as =>
      show ((a :: as).take c :: chunksOfAux c n ((a :: as).drop c)).flatten = a :: as
      rw [List.flatten_cons, ih ((a :: as).drop c) ?_, List.take_append_drop]
      simp only [List.length_drop, List.length_cons] at hl ⊢
      omega

theorem chunksOf_flatten {α} (c : Nat) (hc : c ≠ 0) (l : List α) :
    (chunksOf c l).flatten = l := by
  unfold chunksOf
  rw [if_neg hc]
  exact chunksOfAux_flatten c hc l.length l (Nat.le_refl _)

theorem chunksOfAux_length_le {α} (c : Nat) :
    ∀ (fuel : Nat) (l ch : List α), ch ∈ chunksOfAux c fuel l → ch.length ≤ c := by
  intro fuel
  induction fuel with
  | zero => intro l ch h; simp [chunksOfAux] at h
  | succ n ih =>
    intro l ch h
    cases l with
    | nil => simp [chunksOfAux] at h
    | cons a as =>
      rcases List.mem_cons.mp h with h | h
      · subst h
        simp only [List.length_take]
        omega
      · exact ih _ _ h

theorem chunksOf_length_le {α} {c : Nat} {l ch : List α}
    (h : ch ∈ chunksOf c l) : ch.length ≤ c := by
  unfold chunksOf at h
  split at h
  · cases h
  · exact chunksOfAux_length_le c _ _ _ h

theorem chunkMap_ok {α β} {f : α → Except String β} {g : α → β}
    (hf : ∀ a, f a = .ok (g a)) :
    ∀ l : List α, chunkMap f l = .ok (l.map g) := by
  intro l
  induction l with
  | nil => rfl
  | cons a as ih => simp [chunkMap, hf a, ih]

theorem runChunks_ok {α β} {f : α → Except String β} {g : α → β}
    (hf : ∀ a, f a = .ok (g a)) :
    ∀ chunks : List (List α), runChunks f chunks = .ok (chunks.flatten.map g) := by
  intro chunks
  induction chunks with
  | nil => rfl
  | cons chunk rest ih => simp [runChunks, chunkMap_ok hf, ih]

theorem processInParallel_ok {α β} {f : α → Except String β} {g : α → β}
    (hf : ∀ a, f a = .ok (g a)) {c : Nat} (hc : c ≠ 0) (l : List α) :
    processInParallel f c l = .ok (l.map g) := by
  unfold processInParallel
  rw [runChunks_ok hf, chunksOf_flatten c hc]

theorem concurrencyOrDefault_pos (oc : Option Nat) :
    concurrencyOrDefault oc ≠ 0 := by
  unfold concurrencyOrDefault
  cases oc with
  | none => simp
  | some c =>
    by_cases h0 : c = 0
    · simp [h0]
    · simp [h0]

theorem effectiveConcurrency_pos (options : SyncOptions) :
    effectiveConcurrency options ≠ 0 := by
  have h := concurrencyOrDefault_pos options.concurrency
  unfold effectiveConcurrency clampConcurrency
  unfold ABSOLUTE_MAX_CONCURRENCY MAX_RECOMMENDED_CONCURRENCY
  split
  · omega
  · split <;> omega

theorem syncProductStock_sku (e : ItemEnv) (sku : String) (o : SyncOptions)
    (m : List (String × MLProduct)) :
    (syncProductStock e sku o m).1.sku = sku := by
  unfold syncProductStock
  dsimp only
  repeat' split
  all_goals rfl

theorem syncProductStock_success_action (e : ItemEnv) (sku : String)
    (o : SyncOptions) (m : List (String × MLProduct)) :
    (syncProductStock e sku o m).1.success = true →
      (syncProductStock e sku o m).1.action = .updated ∨
      (syncProductStock e sku o m).1.action = .would_update ∨
      (syncProductStock e sku o m).1.action = .no_change := by
  unfold syncProductStock
  dsimp only
  repeat' split
  all_goals simp

theorem syncProductStock_calls_length (e : ItemEnv) (sku : String)
    (o : SyncOptions) (m : List (String × MLProduct)) :
    (syncProductStock e sku o m).2.length ≤ 1 := by
  unfold syncProductStock
  dsimp only
  repeat' split
  all_goals simp

theorem map_sku_of_sync (e : ItemEnv) (o : SyncOptions)
    (m : List (String × MLProduct)) :
    ∀ skus : List String,
      (((skus.map (fun sku => syncProductStock e sku o m)).map Prod.fst).map
        (fun x => x.sku)) = skus := by
  intro skus
  induction skus with
  | nil => rfl
  | cons s rest ih => simp only [List.map_cons]; rw [ih, syncProductStock_sku]

theorem foldl_add_eq_sum {α} (f : α → Int) :
    ∀ (l : List α) (acc : Int),
      l.foldl (fun a x => a + f x) acc = acc + (l.map f).sum := by
  intro l
  induction l with
  | nil => intro acc; simp
  | cons x xs ih =>
    intro acc
    rw [List.foldl_cons, ih, List.map_cons, List.sum_cons]
    ring

/-! Helper lemmas about the run aggregator and the retry splice. -/

theorem tallyOne_spec (res : RunResults) (r : SyncResult) :
    csum (tallyOne res r) = csum res + 1 ∧
    (tallyOne res r).total = res.total ∧
    (tallyOne res r).details = res.details := by
  unfold tallyOne
  repeat' split
  all_goals refine ⟨?_, rfl, rfl⟩
  all_goals dsimp only [csum]
  all_goals omega

theorem foldl_tallyOne_spec (ds : List SyncResult) :
    ∀ res : RunResults,
      csum (ds.foldl tallyOne res) = csum res + ds.length ∧
      (ds.foldl tallyOne res).total = res.total ∧
      (ds.foldl tallyOne res).details = res.details := by
  induction ds with
  | nil => intro res; simp
  | cons d rest ih =>
    intro res
    rw [List.foldl_cons]
    obtain ⟨h1, h2, h3⟩ := ih (tallyOne res d)
    obtain ⟨g1, g2, g3⟩ := tallyOne_spec res d
    refine ⟨?_, by rw [h2, g2], by rw [h3, g3]⟩
    rw [h1, g1]
    simp only [List.length_cons]
    push_cast
    ring

theorem initialTally_spec (total : Int) (details : List SyncResult) :
    csum (initialTally total details) = details.length ∧
    (initialTally total details).total = total ∧
    (initialTally total details).details = details := by
  unfold initialTally
  obtain ⟨h1, h2, h3⟩ := foldl_tallyOne_spec details
    { total := total, updated := 0, skipped := 0, errors := 0,
      noChange := 0, details := details }
  refine ⟨?_, h2, h3⟩
  rw [h1]
  simp [csum]

theorem spliceDetails_map_sku (r : SyncResult) :
    ∀ (ds : List SyncResult) (orig : SyncResult) (ds1 : List SyncResult),
      spliceDetails r ds = some (orig, ds1) →
      ds1.map (fun x => x.sku) = ds.map (fun x => x.sku) := by
  intro ds
  induction ds with
  | nil => intro orig ds1 h; simp [spliceDetails] at h
  | cons d rest ih =>
    intro orig ds1 h
    unfold spliceDetails at h
    split at h
    · rename_i hsku
      injection h with h
      injection h with h1 h2
      subst h2
      simp [hsku]
    · rename_i hsku
      cases hrec : spliceDetails r rest with
      | none => rw [hrec] at h; cases h
      | some pair =>
        obtain ⟨o, rest1⟩ := pair
        rw [hrec] at h
        injection h with h
        injection h with h1 h2
        subst h2
        simp [ih o rest1 hrec]

theorem spliceOne_total (res : RunResults) (r : SyncResult) :
    (spliceOne res r).total = res.total := by
  unfold spliceOne
  repeat' split
  all_goals rfl

theorem spliceOne_map_sku (res : RunResults) (r : SyncResult) :
    (spliceOne res r).details.map (fun x => x.sku) =
      res.details.map (fun x => x.sku) := by
  unfold spliceOne
  cases h : spliceDetails r res.details with
  | none => rfl
  | some pair =>
    obtain ⟨orig, ds1⟩ := pair
    have hm := spliceDetails_map_sku r res.details orig ds1 h
    dsimp only
    repeat' split
    all_goals simpa using hm

theorem spliceOne_csum (res : RunResults) (r : SyncResult)
    (hr : r.success = true →
      r.action = .updated ∨ r.action = .would_update ∨ r.action = .no_change) :
    csum (spliceOne res r) = csum res := by
  unfold spliceOne
  cases h : spliceDetails r res.details with
  | none => rfl
  | some pair =>
    obtain ⟨orig, ds1⟩ := pair
    dsimp only
    split
    · rename_i hcond
      obtain ⟨hs, _, _⟩ := hcond
      rcases hr hs with ha | ha | ha
      all_goals simp [ha, csum]
      all_goals omega
    · rfl

theorem foldl_spliceOne_spec (rs : List SyncResult)
    (hrs : ∀ r ∈ rs, r.success = true →
      r.action = .updated ∨ r.action = .would_update ∨ r.action = .no_change) :
    ∀ res : RunResults,
      csum (rs.foldl spliceOne res) = csum res ∧
      (rs.foldl spliceOne res).total = res.total ∧
      (rs.foldl spliceOne res).details.map (fun x => x.sku) =
        res.details.map (fun x => x.sku) := by
  induction rs with
  | nil => intro res; simp
  | cons r rest ih =>
    intro res
    rw [List.foldl_cons]
    have hr := hrs r (List.mem_cons_self r rest)
    have hrest : ∀ x ∈ rest, x.success = true →
        x.action = .updated ∨ x.action = .would_update ∨ x.action = .no_change :=
      fun x hx => hrs x (List.mem_cons_of_mem r hx)
    obtain ⟨h1, h2, h3⟩ := ih hrest (spliceOne res r)
    exact ⟨by rw [h1, spliceOne_csum res r hr],
      by rw [h2, spliceOne_total],
      by rw [h3, spliceOne_map_sku]⟩

theorem retryLoop_ok_spec (env : Env) (options : SyncOptions)
    (map : List (String × MLProduct)) {rc : Nat} (hc : rc ≠ 0) :
    ∀ (fuel attempt : Nat) (remaining : List SyncResult)
      (res resF : RunResults) (upd : List UpdateCall),
      retryLoop env options map rc attempt fuel remaining res = .ok (resF, upd) →
      csum resF = csum res ∧ resF.total = res.total ∧
      resF.details.map (fun x => x.sku) = res.details.map (fun x => x.sku) := by
  intro fuel
  induction fuel with
  | zero =>
    intro attempt remaining res resF upd h
    simp only [retryLoop] at h
    injection h with h
    injection h with h1 h2
    subst h1
    exact ⟨rfl, rfl, rfl⟩
  | succ n ih =>
    intro attempt remaining res resF upd h
    simp only [retryLoop] at h
    split at h
    · injection h with h
      injection h with h1 h2
      subst h1
      exact ⟨rfl, rfl, rfl⟩
    · rw [processInParallel_ok (f := retryProcessor env options map attempt)
          (g := fun sku => syncProductStock (env.atPass attempt) sku options map)
          (fun a => rfl) hc (remaining.map (fun r => r.sku))] at h
      dsimp only at h
      set g := fun sku => syncProductStock (env.atPass attempt) sku options map with hg
      set skus := remaining.map (fun r => r.sku) with hskus
      set retryResults := (skus.map g).map Prod.fst with hrr
      have hprop : ∀ r ∈ retryResults, r.success = true →
          r.action = .updated ∨ r.action = .would_update ∨ r.action = .no_change := by
        intro r hrmem
        rw [hrr, List.map_map] at hrmem
        obtain ⟨sku, _, hmk⟩ := List.mem_map.mp hrmem
        subst hmk
        exact syncProductStock_success_action (env.atPass attempt) sku options map
      cases hrec : retryLoop env options map rc (attempt + 1) n
          (retryResults.filter (fun r => isRetryableFailure r))
          (retryResults.foldl spliceOne res) with
      | error e => rw [hrec] at h; cases h
      | ok pairR =>
        obtain ⟨resR, updR⟩ := pairR
        rw [hrec] at h
        injection h with h
        injection h with h1 h2
        obtain ⟨i1, i2, i3⟩ := ih (attempt + 1)
          (retryResults.filter (fun r => isRetryableFailure r))
          (retryResults.foldl spliceOne res) resR updR hrec
        rw [h1] at i1 i2 i3
        obtain ⟨f1, f2, f3⟩ := foldl_spliceOne_spec retryResults hprop res
        exact ⟨by rw [i1, f1], by rw [i2, f2], by rw [i3, f3]⟩

theorem afterInitialPass_ok_spec (env : Env) (skus : List String)
    (options : SyncOptions) (map : List (String × MLProduct))
    (pairs : List (SyncResult × List UpdateCall)) (resF : RunResults)
    (upd : List UpdateCall)
    (h : afterInitialPass env skus options map pairs = .ok (resF, upd)) :
    csum resF = ((pairs.map Prod.fst).length : Int) ∧
    resF.total = Int.ofNat skus.length ∧
    resF.details.map (fun x => x.sku) =
      (pairs.map Prod.fst).map (fun x => x.sku) := by
  unfold afterInitialPass at h
  dsimp only at h
  obtain ⟨t1, t2, t3⟩ := initialTally_spec (Int.ofNat skus.length) (pairs.map Prod.fst)
  split at h
  · have hpos : 0 < Nat.max 2 (effectiveConcurrency options / 2) :=
      Nat.lt_of_lt_of_le (by norm_num) (Nat.le_max_left 2 _)
    have hc : Nat.max 2 (effectiveConcurrency options / 2) ≠ 0 := Nat.pos_iff_ne_zero.mp hpos
    cases hrec : retryLoop env options map
        (Nat.max 2 (effectiveConcurrency options / 2)) 1
        (maxRetriesOrDefault options.maxRetries)
        ((pairs.map Prod.fst).filter (fun r => isRetryableFailure r))
        (initialTally (Int.ofNat skus.length) (pairs.map Prod.fst)) with
    | error e => rw [hrec] at h; cases h
    | ok pairR =>
      obtain ⟨resR, updR⟩ := pairR
      rw [hrec] at h
      injection h with h
      injection h with h1 h2
      obtain ⟨r1, r2, r3⟩ := retryLoop_ok_spec env options map hc
        (maxRetriesOrDefault options.maxRetries) 1
        ((pairs.map Prod.fst).filter (fun r => isRetryableFailure r))
        (initialTally (Int.ofNat skus.length) (pairs.map Prod.fst)) resR updR hrec
      rw [h1] at r1 r2 r3
      exact ⟨by rw [r1, t1], by rw [r2, t2], by rw [r3, t3]⟩
  · injection h with h
    injection h with h1 h2
    subst h1
    exact ⟨t1, t2, by rw [t3]⟩

/-! Additional lemmas about quantity extraction. -/

theorem subArrayStock_eq_sum (sub : StockSub) :
    subArrayStock sub = ((subItems sub).map itemSaldo).sum := by
  cases sub with
  | nonArray => rfl
  | arr items => simp [subArrayStock, subItems, foldl_add_eq_sum]

theorem extractStock_eq_sum (subs : List StockSub) :
    extractStockFromProduct ⟨some subs⟩ = (subs.map subArrayStock).sum := by
  unfold extractStockFromProduct
  dsimp only
  split
  · rw [foldl_add_eq_sum]
    ring
  · rename_i hlen
    have hnil : subs = [] := List.eq_nil_of_length_eq_zero (by omega)
    subst hnil
    rfl

/-! The claims. -/

/-- Claim C1: for every identifier present in both the source and the sink
index with equal quantities, when forceUpdate is false, syncProductStock
returns a no_change decision and issues zero updateMercadoLibreStock
calls. -/
theorem claim_C1 (env : ItemEnv) (sku : String) (options : SyncOptions)
    (map : List (String × MLProduct)) (p : ManagerProduct) (ml : MLProduct)
    (hsrc : env.source sku = .found p)
    (hml : mapGet map sku = some ml)
    (heq : extractStockFromProduct p = ml.currentStock)
    (hforce : options.forceUpdate = false) :
    (syncProductStock env sku options map).1.action = .no_change ∧
    (syncProductStock env sku options map).1.success = true ∧
    (syncProductStock env sku options map).2 = [] := by
  unfold syncProductStock
  rw [hsrc, hml]
  dsimp only
  rw [if_pos ⟨heq, hforce⟩]
  exact ⟨rfl, rfl, rfl⟩

/-- Witness for claim C1 at a concrete input: source quantity 5 equals the
indexed sink quantity 5. -/
theorem claim_C1_witness :
    (syncProductStock exItemEnv5 "A" {} exMap5).1.action = .no_change ∧
    (syncProductStock exItemEnv5 "A" {} exMap5).1.success = true ∧
    (syncProductStock exItemEnv5 "A" {} exMap5).2 = [] :=
  claim_C1 exItemEnv5 "A" {} exMap5 ⟨some [.arr [.obj (some 5)]]⟩ ⟨"MLA1", 5⟩
    rfl (by decide) (by decide) rfl

/-- Claim C2: under dryRun no updateMercadoLibreStock call is ever issued
and a differing (or forced) pair yields would_update; moreover the per-item
step issues at most one update call, and any issued call implies the
non-dry-run, changed-or-forced branch was taken. -/
theorem claim_C2 (env : ItemEnv) (sku : String) (options : SyncOptions)
    (map : List (String × MLProduct)) :
    (options.dryRun = true → (syncProductStock env sku options map).2 = []) ∧
    (∀ p ml, options.dryRun = true → env.source sku = .found p →
      mapGet map sku = some ml →
      (extractStockFromProduct p ≠ ml.currentStock ∨ options.forceUpdate = true) →
      (syncProductStock env sku options map).1.action = .would_update) ∧
    (syncProductStock env sku options map).2.length ≤ 1 ∧
    ((syncProductStock env sku options map).2 ≠ [] →
      options.dryRun = false ∧
      ∃ p ml, env.source sku = .found p ∧ mapGet map sku = some ml ∧
        (extractStockFromProduct p ≠ ml.currentStock ∨ options.forceUpdate = true)) := by
  refine ⟨?_, ?_, syncProductStock_calls_length env sku options map, ?_⟩
  · intro hdry
    unfold syncProductStock
    dsimp only
    repeat' split
    all_goals simp_all
  · intro p ml hdry hsrc hml hdiff
    have hcond : ¬(extractStockFromProduct p = ml.currentStock ∧
        options.forceUpdate = false) := by
      rcases hdiff with hne | hforce
      · exact fun hc => hne hc.1
      · rw [hforce]
        rintro ⟨_, h2⟩
        cases h2
    unfold syncProductStock
    rw [hsrc, hml]
    dsimp only
    rw [if_neg hcond, if_pos hdry]
  · intro hne
    unfold syncProductStock at hne
    cases hsrc : env.source sku with
    | fetchError msg => rw [hsrc] at hne; exact absurd rfl hne
    | notFound => rw [hsrc] at hne; exact absurd rfl hne
    | found p =>
      rw [hsrc] at hne
      cases hml : mapGet map sku with
      | none => rw [hml] at hne; exact absurd rfl hne
      | some ml =>
        rw [hml] at hne
        dsimp only at hne
        by_cases hcond : extractStockFromProduct p = ml.currentStock ∧
            options.forceUpdate = false
        · rw [if_pos hcond] at hne
          exact absurd rfl hne
        · rw [if_neg hcond] at hne
          by_cases hdry : options.dryRun = true
          · rw [if_pos hdry] at hne
            exact absurd rfl hne
          · refine ⟨by simpa using hdry, p, ml, rfl, rfl, ?_⟩
            by_cases he : extractStockFromProduct p = ml.currentStock
            · right
              cases hfo : options.forceUpdate with
              | false => exact absurd ⟨he, hfo⟩ hcond
              | true => rfl
            · exact Or.inl he

/-- Witness for claim C2 at a concrete input: a dry run on differing
quantities issues no update call. -/
theorem claim_C2_witness :
    (syncProductStock exItemEnv5 "A" ⟨true, false, none, none⟩ exMap3).2 = [] :=
  (claim_C2 exItemEnv5 "A" ⟨true, false, none, none⟩ exMap3).1 rfl

/-- Claim C3 counterexample: the extracted total is NOT always
non-negative: a payload whose only saldo is -5 extracts to -5.  The code
adds every numeric saldo without clamping, so negative balances make the
total negative. -/
theorem claim_C3_counterexample :
    extractStockFromProduct ⟨some [.arr [.obj (some (-5))]]⟩ = -5 ∧
    ¬(0 ≤ extractStockFromProduct ⟨some [.arr [.obj (some (-5))]]⟩) := by decide

/-- Claim C3 (amended): quantity extraction sums every numeric saldo at
the innermost level of the array-of-arrays stock representation, treating
missing/non-numeric saldos (and non-object entries and non-array
sub-elements) as zero; the nested example resolves to 10 and the empty
array to 0; and the total is non-negative whenever every saldo in the
payload is non-negative (the unconditional non-negativity of the original
claim fails, see the counterexample). -/
theorem claim_C3 (subs : List StockSub)
    (h : ∀ sub ∈ subs, ∀ it ∈ subItems sub, 0 ≤ itemSaldo it) :
    extractStockFromProduct ⟨some subs⟩ = (subs.map subArrayStock).sum ∧
    (∀ sub ∈ subs, subArrayStock sub = ((subItems sub).map itemSaldo).sum) ∧
    0 ≤ extractStockFromProduct ⟨some subs⟩ ∧
    extractStockFromProduct
      ⟨some [.arr [.obj (some 3), .obj (some 2)], .arr [.obj (some 5)]]⟩ = 10 ∧
    extractStockFromProduct ⟨some []⟩ = 0 := by
  refine ⟨extractStock_eq_sum subs, fun sub _ => subArrayStock_eq_sum sub, ?_,
    by decide, rfl⟩
  rw [extractStock_eq_sum]
  apply List.sum_nonneg
  intro x hx
  obtain ⟨sub, hsub, rfl⟩ := List.mem_map.mp hx
  rw [subArrayStock_eq_sum]
  apply List.sum_nonneg
  intro y hy
  obtain ⟨it, hit, rfl⟩ := List.mem_map.mp hy
  exact h sub hsub it hit

/-- Witness for claim C3 at a concrete input with non-negative saldos. -/
theorem claim_C3_witness :
    0 ≤ extractStockFromProduct ⟨some [.arr [.obj (some 3)]]⟩ :=
  (claim_C3 [.arr [.obj (some 3)]] (by decide)).2.2.1

/-- Claim C7 counterexample: running syncProductStock twice on the same
identifier with the SAME prebuilt sink index yields updated BOTH times,
not updated then no_change: the first call does not modify the prebuilt
index (the cache entry keeps the pre-update quantity), and in this model
the second call is the syntactically identical expression, so its action
is again updated and in particular not no_change. -/
theorem claim_C7_counterexample :
    (syncProductStock exItemEnv5 "A" {} exMap3).1.action = .updated ∧
    ((syncProductStock exItemEnv5 "A" {} exMap3).1.action = .no_change → False) := by
  decide

/-- Claim C7 (amended): with an unrefreshed prebuilt index, a first call on
a differing pair yields updated and writes the source quantity; a second
call against the same index yields updated again with the identical write
(the repeated write is idempotent in effect); the second call yields
no_change exactly when it is given an index whose entry already carries
the written quantity. -/
theorem claim_C7 (env : ItemEnv) (sku : String) (options : SyncOptions)
    (map : List (String × MLProduct)) (p : ManagerProduct) (ml : MLProduct)
    (hsrc : env.source sku = .found p)
    (hml : mapGet map sku = some ml)
    (hneq : extractStockFromProduct p ≠ ml.currentStock)
    (hdry : options.dryRun = false) (hforce : options.forceUpdate = false)
    (hupd : env.update ml.itemId (extractStockFromProduct p) = .ok) :
    (syncProductStock env sku options map).1.action = .updated ∧
    (syncProductStock env sku options map).2 =
      [⟨ml.itemId, extractStockFromProduct p⟩] ∧
    (∀ map2 ml2, mapGet map2 sku = some ml2 →
      ml2.currentStock = extractStockFromProduct p →
      (syncProductStock env sku options map2).1.action = .no_change ∧
      (syncProductStock env sku options map2).2 = []) := by
  have hcond : ¬(extractStockFromProduct p = ml.currentStock ∧
      options.forceUpdate = false) := fun hc => hneq hc.1
  have hdry2 : ¬(options.dryRun = true) := by simp [hdry]
  refine ⟨?_, ?_, ?_⟩
  · unfold syncProductStock
    rw [hsrc, hml]
    dsimp only
    rw [if_neg hcond, if_neg hdry2, hupd]
  · unfold syncProductStock
    rw [hsrc, hml]
    dsimp only
    rw [if_neg hcond, if_neg hdry2, hupd]
  · intro map2 ml2 hml2 hcur
    unfold syncProductStock
    rw [hsrc, hml2]
    dsimp only
    rw [if_pos ⟨hcur.symm, hforce⟩]
    exact ⟨rfl, rfl⟩

/-- Witness for claim C7 at a concrete input: quantity 5 against an index
holding 3 updates; against an index holding 5 it is a no-op. -/
theorem claim_C7_witness :
    (syncProductStock exItemEnv5 "A" {} exMap3).1.action = .updated ∧
    (syncProductStock exItemEnv5 "A" {} exMap5).1.action = .no_change := by
  obtain ⟨h1, h2, h3⟩ := claim_C7 exItemEnv5 "A" {} exMap3
    ⟨some [.arr [.obj (some 5)]]⟩ ⟨"MLA1", 3⟩ rfl (by decide) (by decide) rfl rfl rfl
  exact ⟨h1, (h3 exMap5 ⟨"MLA1", 5⟩ (by decide) (by decide)).1⟩

/-- Claim C8 counterexample: syncMultipleProducts itself does NOT reject
an empty batch: called directly with an empty sku list it verifies
authentication and loads the catalog (two remote calls) and returns a
normal result object with total 0, instead of failing with a validation
error before any remote call. -/
theorem claim_C8_counterexample :
    (syncMultipleProducts envEmptyCatalog [] {}).1.toOption =
      some ⟨0, 0, 0, 0, 0, []⟩ ∧
    (syncMultipleProducts envEmptyCatalog [] {}).2 =
      [.authVerify, .catalogLoad] := by decide

/-- Claim C8 (amended): the empty/invalid-batch rejection lives in the
HTTP layer, not in the engine: the POST /api/sync/stocks handler rejects a
missing, non-array or empty skus field with a 400 validation error before
any remote call is made and before syncMultipleProducts is invoked (the
returned event trace is empty); syncMultipleProducts itself performs no
batch validation (see the counterexample). -/
theorem claim_C8 (env : Env) (skus : Option (List String)) (dryRun : Bool)
    (h : skus = none ∨ skus = some []) :
    handleSyncStocksPost env skus dryRun =
      (.badRequest "Se requiere un array de SKUs en el body", []) := by
  rcases h with h | h <;> subst h <;> rfl

/-- Witness for claim C8 at a concrete input: a missing skus field. -/
theorem claim_C8_witness :
    handleSyncStocksPost envEmptyCatalog none false =
      (.badRequest "Se requiere un array de SKUs en el body", []) :=
  claim_C8 envEmptyCatalog none false (Or.inl rfl)

/-- Claim C9: the requested concurrency is clamped to the absolute ceiling
50 (values above 50 are capped, not rejected: the clamp is a total
function), a warning (the Bool component, never an exception) is surfaced
exactly when the requested value exceeds the soft threshold 20, and every
chunk processed at the clamped concurrency has at most 50 items in
flight. -/
theorem claim_C9 (c : Nat) (hc : c ≠ 0) :
    effectiveConcurrency { concurrency := some c } ≤ ABSOLUTE_MAX_CONCURRENCY ∧
    (ABSOLUTE_MAX_CONCURRENCY < c →
      effectiveConcurrency { concurrency := some c } = ABSOLUTE_MAX_CONCURRENCY) ∧
    (c ≤ ABSOLUTE_MAX_CONCURRENCY →
      effectiveConcurrency { concurrency := some c } = c) ∧
    (concurrencyWarned { concurrency := some c } = true ↔
      MAX_RECOMMENDED_CONCURRENCY < c) ∧
    (∀ (l : List String) (chunk : List String),
      chunk ∈ chunksOf (effectiveConcurrency { concurrency := some c }) l →
      chunk.length ≤ ABSOLUTE_MAX_CONCURRENCY) := by
  have hcd : concurrencyOrDefault (some c) = c := by
    unfold concurrencyOrDefault
    simp [hc]
  have heff : effectiveConcurrency { concurrency := some c } =
      (clampConcurrency c).1 := by
    unfold effectiveConcurrency
    dsimp only
    rw [hcd]
  have hwarn : concurrencyWarned { concurrency := some c } =
      (clampConcurrency c).2 := by
    unfold concurrencyWarned
    dsimp only
    rw [hcd]
  have hle : (clampConcurrency c).1 ≤ ABSOLUTE_MAX_CONCURRENCY ∧
      (ABSOLUTE_MAX_CONCURRENCY < c →
        (clampConcurrency c).1 = ABSOLUTE_MAX_CONCURRENCY) ∧
      (c ≤ ABSOLUTE_MAX_CONCURRENCY → (clampConcurrency c).1 = c) ∧
      ((clampConcurrency c).2 = true ↔ MAX_RECOMMENDED_CONCURRENCY < c) := by
    unfold clampConcurrency ABSOLUTE_MAX_CONCURRENCY MAX_RECOMMENDED_CONCURRENCY
    split
    · rename_i h50
      refine ⟨by omega, fun _ => rfl, by omega, by simp; omega⟩
    · rename_i h50
      split
      · rename_i h20
        refine ⟨by omega, by omega, fun _ => rfl, by simp; omega⟩
      · rename_i h20
        refine ⟨by omega, by omega, fun _ => rfl, by simp; omega⟩
  refine ⟨by rw [heff]; exact hle.1, by rw [heff]; exact hle.2.1,
    by rw [heff]; exact hle.2.2.1, by rw [hwarn]; exact hle.2.2.2, ?_⟩
  intro l chunk hmem
  rw [heff] at hmem
  exact Nat.le_trans (chunksOf_length_le hmem) hle.1

/-- Witness for claim C9 at the concrete requested value 200: the
effective concurrency is capped at 50, the warning fires, and a concrete
chunk is within the ceiling. -/
theorem claim_C9_witness :
    effectiveConcurrency { concurrency := some 200 } = ABSOLUTE_MAX_CONCURRENCY ∧
    (concurrencyWarned { concurrency := some 200 } = true) ∧
    (["A"] : List String).length ≤ ABSOLUTE_MAX_CONCURRENCY := by
  obtain ⟨h1, h2, h3, h4, h5⟩ := claim_C9 200 (by decide)
  exact ⟨h2 (by decide), h4.mpr (by decide), h5 ["A"] ["A"] (by decide)⟩

/-- Claim C10: syncAllProducts throws (rather than returning an empty
result object) when the freshly built catalog index holds zero SKUs; the
error is raised before syncMultipleProducts runs, so the only remote
event in the trace is the catalog load (no auth verification and no sink
update happens). -/
theorem claim_C10 (env : Env) (options : SyncOptions)
    (h : env.catalog = .ok []) :
    syncAllProducts env options =
      (.error "No hay publicaciones con SKU configurado en Mercado Libre. Configura seller_custom_field o el atributo SELLER_SKU para cada publicación.",
       [.catalogLoad]) := by
  unfold syncAllProducts
  rw [h]
  rfl

/-- Witness for claim C10 at a concrete environment with an empty
catalog. -/
theorem claim_C10_witness :
    syncAllProducts envEmptyCatalog {} =
      (.error "No hay publicaciones con SKU configurado en Mercado Libre. Configura seller_custom_field o el atributo SELLER_SKU para cada publicación.",
       [.catalogLoad]) :=
  claim_C10 envEmptyCatalog {} rfl

/-- Claim C4: for every run of syncMultipleProducts that returns, the
per-item detail sequence of the returned results object has the same
length and the same identifier order as the input sku sequence (the
initial pass produces details in input order — Promise.all preserves
index order regardless of completion timing — and every retry splice
replaces a detail in place by identifier, preserving the order). -/
theorem claim_C4 (env : Env) (skus : List String) (options : SyncOptions)
    (res : RunResults) (tr : List Event)
    (h : syncMultipleProducts env skus options = (.ok res, tr)) :
    res.details.map (fun r => r.sku) = skus ∧
    res.details.length = skus.length ∧
    (∀ (e : ItemEnv) (m : List (String × MLProduct)) (c : Nat), c ≠ 0 →
      processInParallel
          (fun sku => Except.ok (syncProductStock e sku options m)) c skus =
        .ok (skus.map (fun sku => syncProductStock e sku options m)) ∧
      ((skus.map (fun sku => syncProductStock e sku options m)).map
        Prod.fst).map (fun x => x.sku) = skus) := by
  refine ?_
  unfold syncMultipleProducts at h
  cases ha : env.authCheck with
  | error e => rw [ha] at h; simp at h
  | ok u =>
    rw [ha] at h
    dsimp only at h
    cases hcat : env.catalog with
    | error e => rw [hcat] at h; simp at h
    | ok map =>
      rw [hcat] at h
      dsimp only at h
      rw [processInParallel_ok
        (f := fun sku => Except.ok (syncProductStock (env.atPass 0) sku options map))
        (g := fun sku => syncProductStock (env.atPass 0) sku options map)
        (fun a => rfl) (effectiveConcurrency_pos options) skus] at h
      dsimp only at h
      cases hap : afterInitialPass env skus options map
          (skus.map (fun sku => syncProductStock (env.atPass 0) sku options map)) with
      | error e => rw [hap] at h; simp at h
      | ok pairR =>
        obtain ⟨resF, upd⟩ := pairR
        rw [hap] at h
        dsimp only at h
        injection h with h1 h2
        injection h1 with h1
        obtain ⟨s1, s2, s3⟩ := afterInitialPass_ok_spec env skus options map _ resF upd hap
        rw [h1] at s3
        have hmap : res.details.map (fun r => r.sku) = skus := by
          rw [s3, map_sku_of_sync]
        refine ⟨hmap, ?_, ?_⟩
        · have hlen := congrArg List.length hmap
          simpa using hlen
        · intro e m c hcnz
          exact ⟨processInParallel_ok (fun a => rfl) hcnz skus,
            map_sku_of_sync e options m skus⟩

/-- Witness for claim C4 at a concrete run over the single sku A. -/
theorem claim_C4_witness :
    exUpdatedRun.details.map (fun r => r.sku) = ["A"] ∧
    exUpdatedRun.details.length = (["A"] : List String).length :=
  (fun h => ⟨h.1, h.2.1⟩)
    (claim_C4 exRunEnv ["A"] {} exUpdatedRun
      [.authVerify, .catalogLoad, .sinkUpdate "MLA1" 5] (by rfl))

/-- Claim C5: for every run of syncMultipleProducts that returns, the
final counters satisfy updated + noChange + skipped + errors = total, and
total is the number of requested identifiers, after all retry passes
settle. -/
theorem claim_C5 (env : Env) (skus : List String) (options : SyncOptions)
    (res : RunResults) (tr : List Event)
    (h : syncMultipleProducts env skus options = (.ok res, tr)) :
    res.updated + res.noChange + res.skipped + res.errors = res.total ∧
    res.total = (skus.length : Int) := by
  unfold syncMultipleProducts at h
  cases ha : env.authCheck with
  | error e => rw [ha] at h; simp at h
  | ok u =>
    rw [ha] at h
    dsimp only at h
    cases hcat : env.catalog with
    | error e => rw [hcat] at h; simp at h
    | ok map =>
      rw [hcat] at h
      dsimp only at h
      rw [processInParallel_ok
        (f := fun sku => Except.ok (syncProductStock (env.atPass 0) sku options map))
        (g := fun sku => syncProductStock (env.atPass 0) sku options map)
        (fun a => rfl) (effectiveConcurrency_pos options) skus] at h
      dsimp only at h
      cases hap : afterInitialPass env skus options map
          (skus.map (fun sku => syncProductStock (env.atPass 0) sku options map)) with
      | error e => rw [hap] at h; simp at h
      | ok pairR =>
        obtain ⟨resF, upd⟩ := pairR
        rw [hap] at h
        dsimp only at h
        injection h with h1 h2
        injection h1 with h1
        obtain ⟨s1, s2, s3⟩ := afterInitialPass_ok_spec env skus options map _ resF upd hap
        rw [h1] at s1 s2
        have htot : res.total = (skus.length : Int) := by
          rw [s2]
          simp
        have hsum : csum res = res.total := by
          rw [s1, htot]
          simp
        exact ⟨hsum, htot⟩

/-- Witness for claim C5 at a concrete run over the single sku A. -/
theorem claim_C5_witness :
    exUpdatedRun.updated + exUpdatedRun.noChange + exUpdatedRun.skipped +
      exUpdatedRun.errors = exUpdatedRun.total ∧
    exUpdatedRun.total = ((["A"] : List String).length : Int) :=
  claim_C5 exRunEnv ["A"] {} exUpdatedRun
    [.authVerify, .catalogLoad, .sinkUpdate "MLA1" 5] (by rfl)

/-- Claim C6 counterexample: a flip from Error to Skipped during retries
does NOT adjust the counters.  In envTransientThenMissing the initial
pass fails with a transient server error (errors = 1); the retry returns
a skipped result (the source now reports 404), which replaces the detail
— the final detail list holds only a skipped result — yet errors stays 1
and skipped stays 0, because skipped results carry success = false and
the adjustment requires a successful retry result.  The claim says this
flip decrements errors and increments skipped; it does neither. -/
theorem claim_C6_counterexample :
    (syncMultipleProducts envTransientThenMissing ["A"] {}).1.toOption =
      some ⟨1, 0, 0, 1, 0,
        [⟨"A", false, .skipped, some "Producto no encontrado en Manager+",
          none, none, none⟩]⟩ := by decide

/-- Claim C6 (amended): each retry splice replaces the first detail with
the retried identifier; the counters are adjusted (errors decremented and
the matching success bucket incremented) exactly when the replaced detail
was a non-success error result AND the retry result is successful
(updated, would_update or no_change — the only successful actions a
per-item step can produce); in every other case, including a flip from
Error to Skipped (skipped results are not successful), all counters are
left unchanged — in particular the skipped counter is never touched by a
retry splice. -/
theorem claim_C6 (env : ItemEnv) (sku : String) (options : SyncOptions)
    (map : List (String × MLProduct)) (res : RunResults) (r : SyncResult)
    (hr : r = (syncProductStock env sku options map).1) :
    (spliceOne res r).skipped = res.skipped ∧
    (r.success = false → counters (spliceOne res r) = counters res) ∧
    (∀ orig rest, spliceDetails r res.details = some (orig, rest) →
      (spliceOne res r).details = rest ∧
      (r.success = true → orig.success = false → orig.action = .error →
        (spliceOne res r).errors = res.errors - 1 ∧
        ((r.action = .updated ∨ r.action = .would_update) →
          (spliceOne res r).updated = res.updated + 1) ∧
        (r.action = .no_change →
          (spliceOne res r).noChange = res.noChange + 1)) ∧
      (¬(r.success = true ∧ orig.success = false ∧ orig.action = .error) →
        counters (spliceOne res r) = counters res)) := by
  have hact : r.success = true →
      r.action = .updated ∨ r.action = .would_update ∨ r.action = .no_change := by
    rw [hr]
    exact syncProductStock_success_action env sku options map
  clear hr
  unfold spliceOne
  cases hsd : spliceDetails r res.details with
  | none =>
    exact ⟨rfl, fun _ => rfl, fun orig rest hcontra => by cases hcontra⟩
  | some pair =>
    obtain ⟨orig0, rest0⟩ := pair
    dsimp only
    refine ⟨?_, ?_, ?_⟩
    · split
      · rename_i hcond
        rcases hact hcond.1 with ha | ha | ha <;> simp [ha]
      · rfl
    · intro hf
      rw [if_neg (by rintro ⟨hs, _⟩; rw [hf] at hs; cases hs)]
      rfl
    · intro orig rest hsome
      injection hsome with hsome
      injection hsome with hEq1 hEq2
      subst hEq1
      subst hEq2
      refine ⟨?_, ?_, ?_⟩
      · split
        · rename_i hcond
          rcases hact hcond.1 with ha | ha | ha <;> simp [ha]
        · rfl
      · intro hs ho1 ho2
        rw [if_pos ⟨hs, ho1, ho2⟩]
        rcases hact hs with ha | ha | ha
        · rw [if_pos (Or.inl ha)]
          exact ⟨rfl, fun _ => rfl, fun hnc => by rw [ha] at hnc; cases hnc⟩
        · rw [if_pos (Or.inr ha)]
          exact ⟨rfl, fun _ => rfl, fun hnc => by rw [ha] at hnc; cases hnc⟩
        · rw [if_neg (by rw [ha]; rintro (hx | hx) <;> cases hx), if_pos ha]
          refine ⟨rfl, fun hud => ?_, fun _ => rfl⟩
          rcases hud with hx | hx <;> (rw [ha] at hx; cases hx)
      · intro hncond
        rw [if_neg hncond]
        rfl

/-- Witness for claim C6 at a concrete input: splicing a successful
updated retry result over an error detail decrements errors by one and
leaves the skipped counter unchanged. -/
theorem claim_C6_witness :
    (spliceOne exErrorRun (syncProductStock exItemEnv5 "A" {} exMap3).1).skipped =
      exErrorRun.skipped ∧
    (spliceOne exErrorRun (syncProductStock exItemEnv5 "A" {} exMap3).1).errors =
      exErrorRun.errors - 1 := by
  obtain ⟨w1, w2, w3⟩ := claim_C6 exItemEnv5 "A" {} exMap3 exErrorRun
    (syncProductStock exItemEnv5 "A" {} exMap3).1 rfl
  refine ⟨w1, ?_⟩
  exact ((w3 exErrorDetail [(syncProductStock exItemEnv5 "A" {} exMap3).1]
    (by decide)).2.1 (by decide) (by decide) (by decide)).1

end SyncStocksML
